import Mathlib

set_option maxHeartbeats 1000000

/-! Shallow embedding of the countryfetch Deno CLI (`src/countries.ts`,
`src/environment/environment.ts`, and the unnamed sibling variants of
`Countries` shipped in the repository), together with proofs about its
cache-staleness policy, sync orchestration and the lookup operations.

JavaScript semantics are modelled explicitly: possibly-`undefined` values
become `Option`, thrown exceptions become `Except.error` carrying the thrown
message, `x || y` on strings respects falsiness of the empty string, and
`Array.prototype.find` is first-match-in-order (`List.find?`). -/

/-- Global configuration, from `src/environment/environment.ts`
(`cacheDir` is omitted: it depends on the host home directory and no
modelled operation reads it). -/
structure Environment where
  baseUrl : String
  syncInterval : Int
  flagWidth : Nat
  queries : String
deriving DecidableEq

/-- The `environment` constant of `src/environment/environment.ts`. -/
def environment : Environment :=
  { baseUrl := "https://restcountries.com/v3.1/"
    syncInterval := 7
    flagWidth := 40
    queries := "all?fields=name,capital,currencies,population,flags,languages,region,subregion,timezones,latlng" }

/-- A currency value of the `Currencies` mapping (`models/country.model.ts`). -/
structure Currency where
  name : String
  symbol : String
deriving DecidableEq

/-- The `name` object of a REST-countries record; only `common` is used. -/
structure CountryName where
  common : String
deriving DecidableEq

/-- The `flags` object of a REST-countries record: raster (`png`) and vector
(`svg`) URLs, each possibly missing. -/
structure CountryFlags where
  png : Option String
  svg : Option String
deriving DecidableEq

/-- The `capitalInfo` object: coordinates of the capital, possibly missing.
Numbers are modelled as their rendered decimal strings, since the code only
ever joins them into display strings. -/
structure CapitalInfo where
  latlng : Option (List String)
deriving DecidableEq

/-- A country record (`models/country.model.ts`).  Fields that the response
may omit (the code guards them with `?.` / `??` or explicit checks) are
`Option`; mapping-typed fields (`currencies`, `languages`) are association
lists in object-key iteration order. -/
structure Country where
  name : CountryName
  capital : Option (List String)
  region : Option String
  subregion : Option String
  population : Option Nat
  latlng : Option (List String)
  timezones : Option (List String)
  tld : Option (List String)
  flags : Option CountryFlags
  capitalInfo : Option CapitalInfo
  currencies : List (String × Currency)
  languages : List (String × String)
deriving DecidableEq

/-- A flag-art entry (`models/flag-ascii.model.ts`): country name plus the
rendered text lines. -/
structure FlagAscii where
  countryName : String
  flagString : List String
deriving DecidableEq

/-- The on-disk cache as seen through `util/cache.ts`: the three logical keys
the synchronizer uses.  `none` models an absent entry. -/
structure CacheState where
  countries : Option (List Country)
  flags : Option (List FlagAscii)
  lastSynced : Option Int
deriving DecidableEq

/-- Outcome of the `fetch` call against the remote endpoint: a parsed
2xx JSON body, or a non-success response with its body text. -/
inductive FetchResult where
  | ok (countries : List Country)
  | err (body : String)
deriving DecidableEq

/-- Observable effects of one `sync` invocation, in program order. -/
inductive Event where
  | fetch
  | saveCountries (cs : List Country)
  | saveLastSynced (t : Int)
  | render (url : String)
  | saveFlags (fs : List FlagAscii)
deriving DecidableEq

/-- JavaScript `a || b` where `a` is a possibly-`undefined` string: the
right operand is taken when `a` is `undefined` or falsy (the empty string). -/
def jsOrStr (a : Option String) (b : String) : String :=
  match a with
  | some s => if s = "" then b else s
  | none => b

/-- JavaScript `s.toLowerCase()`, modelled as the character-wise case map
over the string's characters. -/
def strToLower (s : String) : String :=
  ⟨s.data.map Char.toLower⟩

/-- Contiguous-sublist test on character lists: `sub` occurs at some
position of `l`. -/
def charsContain (sub : List Char) : List Char → Bool
  | [] => sub.isEmpty
  | a :: rest => sub.isPrefixOf (a :: rest) || charsContain sub rest

/-- JavaScript `s.includes(sub)`: substring containment. -/
def strContains (s sub : String) : Bool :=
  charsContain sub.data s.data

/-- `Countries.shouldSync` of `src/countries.ts` (lines 158-165).  Note the
threshold: `environment.syncInterval * 23 * 60 * 60 * 1000` milliseconds —
23-hour units despite the variable being named `week` and the user-facing
message promising a sync "every 7 days".  When `last-synced` is absent,
`Number(undefined)` is `NaN` and `NaN > week` is `false`, so `updateDue` is
modelled as `false` in that case (the `!lastSynced` disjunct fires instead). -/
def shouldSync (st : CacheState) (now : Int) : Bool :=
  let cacheExists := st.countries.isSome
  let week : Int := environment.syncInterval * 23 * 60 * 60 * 1000
  let updateDue :=
    match st.lastSynced with
    | some t => decide (now - t > week)
    | none => false
  !cacheExists || st.lastSynced.isNone || updateDue

/-- `Countries.shouldSync` of the unnamed repository variant
(`src/unnamed/part_000`, lines 135-142): identical except the threshold is
`environment.syncInterval * 7 * 24 * 60 * 60 * 1000` milliseconds, i.e.
`syncInterval` *weeks* (49 days for the configured interval of 7). -/
def shouldSyncA (st : CacheState) (now : Int) : Bool :=
  let cacheExists := st.countries.isSome
  let week : Int := environment.syncInterval * 7 * 24 * 60 * 60 * 1000
  let updateDue :=
    match st.lastSynced with
    | some t => decide (now - t > week)
    | none => false
  !cacheExists || st.lastSynced.isNone || updateDue

/-- `Countries.generateFlagImgs` of `src/unnamed/part_000` (lines 161-184):
derive `country.flags?.png || country.flags?.svg || "N/A"`, skip the country
(`continue`) when the result is the `"N/A"` sentinel, otherwise delegate to
the image converter (`render`) and accumulate.  Returns the accumulated
flag-art entries together with the render events in order. -/
def generateFlagImgs (countries : List Country) (render : String → List String) :
    List FlagAscii × List Event :=
  match countries with
  | [] => ([], [])
  | c :: rest =>
    let flagUrl := jsOrStr (c.flags.bind CountryFlags.png)
      (jsOrStr (c.flags.bind CountryFlags.svg) "N/A")
    if flagUrl = "N/A" then
      generateFlagImgs rest render
    else
      let tail := generateFlagImgs rest render
      (⟨c.name.common, render flagUrl⟩ :: tail.1, Event.render flagUrl :: tail.2)

/-- Result of a successful `sync`: the returned list, the in-memory flag-art
table, and the cache state after the invocation. -/
structure SyncOut where
  list : List Country
  flags : List FlagAscii
  cache : CacheState
deriving DecidableEq

/-- `Countries.sync` of `src/unnamed/part_000` (lines 25-66; the variant with
the `response.ok` check).  Inputs beyond the config flags: the cache state,
the current time, the fetch outcome, and the image converter.  Returns the
emitted effect trace paired with the outcome; a thrown exception is
`Except.error` of its message.  On the fresh-cache path, an absent
"countries" entry makes the later `this.list.map` dereference throw a
`TypeError`. -/
def sync (force flagAscii : Bool) (st : CacheState) (now : Int)
    (fr : FetchResult) (render : String → List String) :
    List Event × Except String SyncOut :=
  if shouldSyncA st now || force then
    match fr with
    | FetchResult.err body => ([Event.fetch], Except.error ("API Error: " ++ body))
    | FetchResult.ok countries =>
      if flagAscii then
        let gfi := generateFlagImgs countries render
        ([Event.fetch, Event.saveCountries countries, Event.saveLastSynced now]
            ++ gfi.2 ++ [Event.saveFlags gfi.1],
         Except.ok
           { list := countries
             flags := gfi.1
             cache :=
               { countries := some countries
                 flags := some gfi.1
                 lastSynced := some now } })
      else
        ([Event.fetch, Event.saveCountries countries, Event.saveLastSynced now],
         Except.ok
           { list := countries
             flags := []
             cache :=
               { countries := some countries
                 flags := st.flags
                 lastSynced := some now } })
  else
    match st.countries with
    | some cs => ([], Except.ok { list := cs, flags := st.flags.getD [], cache := st })
    | none => ([], Except.error "TypeError: Cannot read properties of null (reading map)")

/-- `Countries.find` of `src/countries.ts` (lines 65-87): lowercase the
query, first-match on exact lowercased-name equality, then first-match on
substring containment, else throw. -/
def find (list : List Country) (name : String) : Except String Country :=
  match list.find? (fun c => strToLower c.name.common == strToLower name) with
  | some country => Except.ok country
  | none =>
    match list.find? (fun c => strContains (strToLower c.name.common) (strToLower name)) with
    | some country => Except.ok country
    | none => Except.error ("Cannot find country named " ++ strToLower name)

/-- Scan underlying `Countries.findByCapital` (`src/countries.ts` lines
143-156): JavaScript `list.find` runs the callback left to right, and the
callback throws a `TypeError` on `c.capital.map` when `capital` is absent;
otherwise it lowercases the capitals and tests `includes(capital)` — note the
query itself is NOT lowercased by the code. -/
def findCapScan (list : List Country) (capital : String) :
    Except String (Option Country) :=
  match list with
  | [] => Except.ok none
  | c :: rest =>
    match c.capital with
    | none => Except.error "TypeError: Cannot read properties of undefined (reading map)"
    | some caps =>
      if (caps.map strToLower).contains capital then Except.ok (some c)
      else findCapScan rest capital

/-- `Countries.findByCapital` of `src/countries.ts` (lines 143-156): wrap the
scan; no match throws the "Could not find the country of capital" message. -/
def findByCapital (list : List Country) (capital : String) : Except String Country :=
  match findCapScan list capital with
  | Except.error e => Except.error e
  | Except.ok (some c) => Except.ok c
  | Except.ok none => Except.error ("Could not find the country of capital: " ++ capital)

/-- Insert thousands separators into a reversed digit list (tail of the
`toLocaleString` model). -/
def insertCommas : List Char → List Char
  | a :: b :: c :: d :: rest => a :: b :: c :: ',' :: insertCommas (d :: rest)
  | l => l

/-- JavaScript `Number.prototype.toLocaleString` for non-negative integers in
the default grouping locale: decimal digits with a comma every three. -/
def toLocaleString (n : Nat) : String :=
  ⟨(insertCommas (toString n).data.reverse).reverse⟩

/-- `Countries.extractCurrencies` of `src/unnamed/part_000` (lines 144-151):
"<name> (<abbr>)" per entry, joined with " | ". -/
def extractCurrencies (currencies : List (String × Currency)) : String :=
  String.intercalate " | "
    (currencies.map (fun p => p.2.name ++ " (" ++ p.1 ++ ")"))

/-- `Countries.extractLanguages` of `src/unnamed/part_000` (lines 153-159):
the display names joined with " | ". -/
def extractLanguages (languages : List (String × String)) : String :=
  String.intercalate " | " (languages.map (fun p => p.2))

/-- The flat display record passed to `logger.logCountry`, extended with the
flag status line that `print` emits alongside it. -/
structure PrintRec where
  country : String
  latlng : String
  capital : String
  flag : String
  population : String
  region : String
  subregion : String
  capitalLatLng : String
  timezones : String
  tld : String
  currencies : String
  languages : String
deriving DecidableEq

/-- `Countries.print` of `src/unnamed/part_000` (lines 92-128), as the pure
projection of a country (plus the flag-art table) into the display record:
every optional field falls back to "N/A" via `?.`/`??`, and the flag line is
"Flag: Displayed" or "Flag: Not Available" depending on whether a flag-art
entry with the country's exact common name exists. -/
def print (c : Country) (flags : List FlagAscii) : PrintRec :=
  let flagAscii := flags.find? (fun i => i.countryName == c.name.common)
  { country := c.name.common
    latlng :=
      match c.latlng with
      | some l => String.intercalate "/" l
      | none => "N/A"
    capital :=
      match c.capital with
      | some (x :: _) => x
      | some [] => "N/A"
      | none => "N/A"
    flag := "Flag: " ++ (if flagAscii.isSome then "Displayed" else "Not Available")
    population :=
      match c.population with
      | some p => toLocaleString p
      | none => "N/A"
    region := c.region.getD "N/A"
    subregion := c.subregion.getD "N/A"
    capitalLatLng :=
      match c.capitalInfo with
      | some ci =>
        match ci.latlng with
        | some l => String.intercalate "/" l
        | none => "N/A"
      | none => "N/A"
    timezones :=
      match c.timezones with
      | some l => String.intercalate " | " l
      | none => "N/A"
    tld :=
      match c.tld with
      | some l => String.intercalate " | " l
      | none => "N/A"
    currencies := extractCurrencies c.currencies
    languages := extractLanguages c.languages }

/-- `Countries.random` of `src/countries.ts` (lines 129-132): index
`Math.floor(Math.random() * names.length)` into the name index.  The
`Math.random()` draw — a binary double, hence a rational — is given as
`num / den` with `0 ≤ num < den`; for such a draw
`Math.floor((num / den) * n)` is exactly the natural division
`num * n / den`.  Indexing out of bounds (the empty-index case) yields
`undefined`, i.e. `none` — the function returns it without throwing. -/
def random (names : List String) (num den : Nat) : Option String :=
  let randomNum := num * names.length / den
  names.get? randomNum

/-! ## Shared demo records (used by witnesses and counterexamples) -/

/-- A country record with every optional field absent and empty mappings. -/
def baseCountry : Country :=
  { name := ⟨""⟩, capital := none, region := none, subregion := none,
    population := none, latlng := none, timezones := none, tld := none,
    flags := none, capitalInfo := none, currencies := [], languages := [] }

/-- Demo record: France with capital Paris. -/
def franceC : Country :=
  { baseCountry with name := ⟨"France"⟩, capital := some ["Paris"] }

/-- Demo record: Spain with capital Madrid. -/
def spainC : Country :=
  { baseCountry with name := ⟨"Spain"⟩, capital := some ["Madrid"] }

/-! ## Helper lemmas -/

/-- Every event emitted by the flag-art generation loop is a render event. -/
theorem generateFlagImgs_events (cs : List Country) (render : String → List String) :
    ∀ e ∈ (generateFlagImgs cs render).2, ∃ u, e = Event.render u := by
  induction cs with
  | nil => simp [generateFlagImgs]
  | cons c rest ih =>
    intro e he
    by_cases hurl : jsOrStr (c.flags.bind CountryFlags.png)
        (jsOrStr (c.flags.bind CountryFlags.svg) "N/A") = "N/A"
    · rw [generateFlagImgs] at he
      simp only [hurl, if_true] at he
      exact ih e he
    · rw [generateFlagImgs] at he
      simp only [hurl, if_false] at he
      rcases List.mem_cons.mp he with h | h
      · exact ⟨_, h⟩
      · exact ih e h

/-! ## C1 -/

/-- C1: the spec says `sync(force=false)` treats the cache as stale exactly
when the timestamp or dataset is absent, or `now - lastSynced` exceeds
`syncIntervalDays * 24h` (7 days).  The code disagrees with that threshold:
`shouldSync` of `src/countries.ts` multiplies by 23 hours per "day"
(re-fetching already at age 165h ≤ 7·24h), while the `shouldSync` of the
`src/unnamed/part_000` variant multiplies by `7 * 24` hours per "day"
(still serving the cache at age 336h > 7·24h).  Both contradict the code's
own `week` variable name and its user-facing "every 7 days" message. -/
theorem C1_staleness_threshold_bug :
    shouldSync { countries := some [], flags := some [], lastSynced := some 0 }
        (165 * 60 * 60 * 1000) = true
    ∧ ((165 * 60 * 60 * 1000 : Int) - 0 ≤ environment.syncInterval * 24 * 60 * 60 * 1000)
    ∧ shouldSyncA { countries := some [], flags := some [], lastSynced := some 0 }
        (336 * 60 * 60 * 1000) = false
    ∧ ((336 * 60 * 60 * 1000 : Int) - 0 > environment.syncInterval * 24 * 60 * 60 * 1000) := by
  decide

/-! ## C2 -/

/-- C2: for every cache state (any timestamp, dataset present or absent),
`sync` with `force = true` performs the remote fetch and, on a parsed
response, replaces the persisted dataset and timestamp — the freshness check
is bypassed unconditionally. -/
theorem C2_sync_force_refetches (st : CacheState) (now : Int) (flagAscii : Bool)
    (cs : List Country) (render : String → List String) :
    ∃ ev out, sync true flagAscii st now (FetchResult.ok cs) render = (ev, Except.ok out)
      ∧ Event.fetch ∈ ev
      ∧ Event.saveCountries cs ∈ ev
      ∧ out.cache.countries = some cs
      ∧ out.cache.lastSynced = some now
      ∧ out.list = cs := by
  cases flagAscii with
  | false =>
    have hs : sync true false st now (FetchResult.ok cs) render
        = ([Event.fetch, Event.saveCountries cs, Event.saveLastSynced now],
           Except.ok
             { list := cs, flags := [],
               cache := { countries := some cs, flags := st.flags, lastSynced := some now } }) := by
      simp [sync]
    exact ⟨_, _, hs, by simp, by simp, rfl, rfl, rfl⟩
  | true =>
    have hs : sync true true st now (FetchResult.ok cs) render
        = (Event.fetch :: Event.saveCountries cs :: Event.saveLastSynced now ::
             ((generateFlagImgs cs render).2 ++ [Event.saveFlags (generateFlagImgs cs render).1]),
           Except.ok
             { list := cs, flags := (generateFlagImgs cs render).1,
               cache := { countries := some cs, flags := some (generateFlagImgs cs render).1,
                          lastSynced := some now } }) := by
      simp [sync]
    exact ⟨_, _, hs, by simp, by simp, rfl, rfl, rfl⟩

/-! ## C3 -/

/-- C3: during a stale-or-forced sync, the snapshot (key "countries") and
timestamp (key "last-synced") are persisted before any flag-art generation
event; the first three trace entries are independent of the image-rendering
collaborator, so a flag-art failure or interruption cannot affect the
already-persisted base dataset, and the resulting cache holds exactly the
fetched snapshot and the current timestamp. -/
theorem C3_persist_before_flag_art (force : Bool) (st : CacheState) (now : Int)
    (cs : List Country) (r1 r2 : String → List String)
    (h : shouldSyncA st now = true ∨ force = true) :
    (∃ tail, (sync force true st now (FetchResult.ok cs) r1).1
        = Event.fetch :: Event.saveCountries cs :: Event.saveLastSynced now :: tail
      ∧ ∀ e ∈ tail, (∃ u, e = Event.render u) ∨ ∃ fs, e = Event.saveFlags fs)
    ∧ (sync force true st now (FetchResult.ok cs) r1).1.take 3
        = (sync force true st now (FetchResult.ok cs) r2).1.take 3
    ∧ ∃ out, (sync force true st now (FetchResult.ok cs) r1).2 = Except.ok out
        ∧ out.cache.countries = some cs ∧ out.cache.lastSynced = some now := by
  have hb : (shouldSyncA st now || force) = true := by
    rcases h with h | h <;> simp [h]
  refine ⟨⟨(generateFlagImgs cs r1).2 ++ [Event.saveFlags (generateFlagImgs cs r1).1],
      ?_, ?_⟩, ?_, ?_⟩
  · simp [sync, hb]
  · intro e he
    rcases List.mem_append.mp he with he | he
    · exact Or.inl (generateFlagImgs_events cs r1 e he)
    · rcases List.mem_singleton.mp he with rfl
      exact Or.inr ⟨_, rfl⟩
  · simp [sync, hb]
  · exact ⟨{ list := cs, flags := (generateFlagImgs cs r1).1,
             cache := { countries := some cs, flags := some (generateFlagImgs cs r1).1,
                        lastSynced := some now } },
           by simp [sync, hb], rfl, rfl⟩

/-- C3 witness: a forced sync from an empty cache with two different
renderers. -/
theorem C3_persist_before_flag_art_witness :
    (∃ tail, (sync true true ⟨none, none, none⟩ 0 (FetchResult.ok [franceC])
          (fun _ => ["art"])).1
        = Event.fetch :: Event.saveCountries [franceC] :: Event.saveLastSynced 0 :: tail
      ∧ ∀ e ∈ tail, (∃ u, e = Event.render u) ∨ ∃ fs, e = Event.saveFlags fs)
    ∧ (sync true true ⟨none, none, none⟩ 0 (FetchResult.ok [franceC])
          (fun _ => ["art"])).1.take 3
        = (sync true true ⟨none, none, none⟩ 0 (FetchResult.ok [franceC])
          (fun _ => [])).1.take 3
    ∧ ∃ out, (sync true true ⟨none, none, none⟩ 0 (FetchResult.ok [franceC])
          (fun _ => ["art"])).2 = Except.ok out
        ∧ out.cache.countries = some [franceC] ∧ out.cache.lastSynced = some 0 :=
  C3_persist_before_flag_art true ⟨none, none, none⟩ 0 [franceC]
    (fun _ => ["art"]) (fun _ => []) (Or.inr rfl)

/-! ## C4 -/

/-- C4: when the remote endpoint answers non-2xx, a stale-or-forced sync
throws `API Error: <body>` — the error carries the response body — and the
trace contains no persist events: neither the dataset nor the timestamp is
written in that invocation. -/
theorem C4_fetch_error_persists_nothing (force flagAscii : Bool) (st : CacheState)
    (now : Int) (body : String) (render : String → List String)
    (h : shouldSyncA st now = true ∨ force = true) :
    sync force flagAscii st now (FetchResult.err body) render
      = ([Event.fetch], Except.error ("API Error: " ++ body))
    ∧ (∀ cs, Event.saveCountries cs ∉
        (sync force flagAscii st now (FetchResult.err body) render).1)
    ∧ (∀ t, Event.saveLastSynced t ∉
        (sync force flagAscii st now (FetchResult.err body) render).1) := by
  have hb : (shouldSyncA st now || force) = true := by
    rcases h with h | h <;> simp [h]
  have hs : sync force flagAscii st now (FetchResult.err body) render
      = ([Event.fetch], Except.error ("API Error: " ++ body)) := by
    simp [sync, hb]
  refine ⟨hs, ?_, ?_⟩
  · intro cs hmem
    rw [hs] at hmem
    simp at hmem
  · intro t hmem
    rw [hs] at hmem
    simp at hmem

/-- C4 witness: a non-forced sync over an empty cache (hence stale) with a
500-style body persists nothing. -/
theorem C4_fetch_error_persists_nothing_witness :
    sync false false ⟨none, none, none⟩ 0 (FetchResult.err "boom") (fun _ => [])
      = ([Event.fetch], Except.error ("API Error: " ++ "boom"))
    ∧ (∀ cs, Event.saveCountries cs ∉
        (sync false false ⟨none, none, none⟩ 0 (FetchResult.err "boom") (fun _ => [])).1)
    ∧ (∀ t, Event.saveLastSynced t ∉
        (sync false false ⟨none, none, none⟩ 0 (FetchResult.err "boom") (fun _ => [])).1) :=
  C4_fetch_error_persists_nothing false false ⟨none, none, none⟩ 0 "boom"
    (fun _ => []) (Or.inl (by decide))

/-! ## C5 -/

/-- C5: `find` lowercases the query; it returns the first country in dataset
order whose lowercased common name equals the lowercased query; when no
country matches exactly, it returns the first country whose lowercased
common name contains the lowercased query as a substring; when neither pass
matches, it throws `Cannot find country named <query>`.  In particular, for
any country in the dataset the first conjunct applies to its own name in any
letter case, yielding the first country carrying that name. -/
theorem C5_findByName_two_pass (list : List Country) (q : String) :
    (∀ c, c ∈ list → strToLower c.name.common = strToLower q →
      ∃ c2 pre post, find list q = Except.ok c2
        ∧ list = pre ++ c2 :: post
        ∧ strToLower c2.name.common = strToLower q
        ∧ ∀ d ∈ pre, strToLower d.name.common ≠ strToLower q)
    ∧ ((∀ c ∈ list, strToLower c.name.common ≠ strToLower q) →
      ∀ c, c ∈ list → strContains (strToLower c.name.common) (strToLower q) = true →
        ∃ c2 pre post, find list q = Except.ok c2
          ∧ list = pre ++ c2 :: post
          ∧ strContains (strToLower c2.name.common) (strToLower q) = true
          ∧ ∀ d ∈ pre, strContains (strToLower d.name.common) (strToLower q) = false)
    ∧ ((∀ c ∈ list, strToLower c.name.common ≠ strToLower q
          ∧ strContains (strToLower c.name.common) (strToLower q) = false) →
      find list q = Except.error ("Cannot find country named " ++ strToLower q)) := by
  refine ⟨?_, ?_, ?_⟩
  · intro c hc hq
    have hsome : (list.find? (fun c => strToLower c.name.common == strToLower q)).isSome := by
      rw [List.find?_isSome]
      exact ⟨c, hc, by simp [hq]⟩
    obtain ⟨c2, hc2⟩ := Option.isSome_iff_exists.mp hsome
    obtain ⟨hp, pre, post, hdec, hpre⟩ := List.find?_eq_some.mp hc2
    refine ⟨c2, pre, post, ?_, hdec, by simpa using hp, ?_⟩
    · unfold find
      rw [hc2]
    · intro d hd
      have := hpre d hd
      simpa using this
  · intro hno c hc hfz
    have hnone : list.find? (fun c => strToLower c.name.common == strToLower q) = none :=
      List.find?_eq_none.mpr (fun x hx => by simpa using hno x hx)
    have hsome :
        (list.find? (fun c => strContains (strToLower c.name.common) (strToLower q))).isSome := by
      rw [List.find?_isSome]
      exact ⟨c, hc, hfz⟩
    obtain ⟨c2, hc2⟩ := Option.isSome_iff_exists.mp hsome
    obtain ⟨hp, pre, post, hdec, hpre⟩ := List.find?_eq_some.mp hc2
    refine ⟨c2, pre, post, ?_, hdec, hp, ?_⟩
    · unfold find
      rw [hnone, hc2]
    · intro d hd
      have := hpre d hd
      simpa using this
  · intro hboth
    have h1 : list.find? (fun c => strToLower c.name.common == strToLower q) = none :=
      List.find?_eq_none.mpr (fun x hx => by simpa using (hboth x hx).1)
    have h2 : list.find? (fun c => strContains (strToLower c.name.common) (strToLower q)) = none :=
      List.find?_eq_none.mpr (fun x hx => by simp [(hboth x hx).2])
    unfold find
    rw [h1, h2]

/-- C5 witness: an exact-pass lookup of "FRANCE" over [France, Spain]. -/
theorem C5_findByName_two_pass_witness :
    ∃ c2 pre post, find [franceC, spainC] "FRANCE" = Except.ok c2
      ∧ [franceC, spainC] = pre ++ c2 :: post
      ∧ strToLower c2.name.common = strToLower "FRANCE"
      ∧ ∀ d ∈ pre, strToLower d.name.common ≠ strToLower "FRANCE" :=
  (C5_findByName_two_pass [franceC, spainC] "FRANCE").1 franceC (by decide) (by decide)

/-! ## C6 -/

/-- C6 counterexample: `findByCapital` lowercases only the capital entries,
never the query.  For the dataset [France (capital "Paris")], the claim says
the case-insensitive query "Paris" returns France; the code throws NotFound
(the third conjunct confirms the capital equals the query up to case).  And
for a country whose capital list is absent, the claim says the only possible
failure is NotFound; the code throws a TypeError from `c.capital.map`. -/
theorem C6_findByCapital_cex :
    findByCapital [franceC] "Paris"
      = Except.error "Could not find the country of capital: Paris"
    ∧ findByCapital [baseCountry, franceC] "paris"
      = Except.error "TypeError: Cannot read properties of undefined (reading map)"
    ∧ strToLower "Paris" ∈ ["Paris"].map strToLower
    ∧ franceC.capital = some ["Paris"] :=
  ⟨rfl, rfl, by decide, rfl⟩

/-- If the scan succeeds with a country, the list splits as
`pre ++ c :: post` where `c` is the first country whose lowercased capital
entries contain the query verbatim, and every earlier country has a present
capital list that does not contain it. -/
theorem findCapScan_ok_some (q : String) :
    ∀ (list : List Country) (c : Country),
      findCapScan list q = Except.ok (some c) →
      ∃ pre post caps, list = pre ++ c :: post
        ∧ c.capital = some caps
        ∧ (caps.map strToLower).contains q = true
        ∧ ∀ d ∈ pre, ∃ caps2, d.capital = some caps2
            ∧ (caps2.map strToLower).contains q = false := by
  intro list
  induction list with
  | nil => intro c h; simp [findCapScan] at h
  | cons x rest ih =>
    intro c h
    cases hcap : x.capital with
    | none => simp [findCapScan, hcap] at h
    | some caps =>
      by_cases hin : (caps.map strToLower).contains q = true
      · simp only [findCapScan, hcap, hin, if_true] at h
        obtain rfl : x = c := by simpa using h
        exact ⟨[], rest, caps, rfl, hcap, hin, by simp⟩
      · simp only [findCapScan, hcap, hin, if_false] at h
        obtain ⟨pre, post, caps2, hdec, hc, hc2, hpre⟩ := ih c h
        refine ⟨x :: pre, post, caps2, by rw [hdec]; rfl, hc, hc2, ?_⟩
        intro d hd
        rcases List.mem_cons.mp hd with rfl | hd
        · exact ⟨caps, hcap, by simpa using hin⟩
        · exact hpre d hd

/-- If every country's capital list is present and none of them contains the
query (after lowercasing the entries), the scan completes with no match. -/
theorem findCapScan_none (q : String) :
    ∀ (list : List Country),
      (∀ c ∈ list, c.capital ≠ none) →
      (∀ c ∈ list, ∀ caps, c.capital = some caps →
        (caps.map strToLower).contains q = false) →
      findCapScan list q = Except.ok none := by
  intro list
  induction list with
  | nil => intro _ _; rfl
  | cons x rest ih =>
    intro hcap hno
    cases hx : x.capital with
    | none => exact absurd hx (hcap x (List.mem_cons_self x rest))
    | some caps =>
      have hfalse : (caps.map strToLower).contains q = false :=
        hno x (List.mem_cons_self x rest) caps hx
      simp only [findCapScan, hx, hfalse, Bool.false_eq_true, if_false]
      exact ih (fun c hc => hcap c (List.mem_cons_of_mem x hc))
        (fun c hc => hno c (List.mem_cons_of_mem x hc))

/-- Whenever some country in the list has a present capital list whose
lowercased entries contain the query, and every country's capital list is
present, the scan succeeds with some country. -/
theorem findCapScan_finds (q : String) :
    ∀ (list : List Country),
      (∀ c ∈ list, c.capital ≠ none) →
      (∃ c ∈ list, ∃ caps, c.capital = some caps
          ∧ (caps.map strToLower).contains q = true) →
      ∃ c2, findCapScan list q = Except.ok (some c2) := by
  intro list
  induction list with
  | nil =>
    rintro _ ⟨c, hc, _⟩
    exact absurd hc (List.not_mem_nil c)
  | cons x rest ih =>
    rintro hcap ⟨c, hc, caps, hcaps, hin⟩
    cases hx : x.capital with
    | none => exact absurd hx (hcap x (List.mem_cons_self x rest))
    | some capsx =>
      by_cases hinx : (capsx.map strToLower).contains q = true
      · refine ⟨x, ?_⟩
        simp only [findCapScan, hx]
        rw [if_pos hinx]
      · have hcrest : c ∈ rest := by
          rcases List.mem_cons.mp hc with rfl | h
          · rw [hx] at hcaps
            obtain rfl : capsx = caps := by simpa using hcaps
            exact absurd hin hinx
          · exact h
        obtain ⟨c2, hc2⟩ := ih (fun d hd => hcap d (List.mem_cons_of_mem x hd))
          ⟨c, hcrest, caps, hcaps, hin⟩
        refine ⟨c2, ?_⟩
        simp only [findCapScan, hx]
        rw [if_neg hinx]
        exact hc2

/-- C6 amended: over datasets in which every country's capital list is
present, `findByCapital` returns the first country one of whose lowercased
capital entries equals the query string exactly as given (so it is
insensitive to the capitals' stored case but requires the query itself to be
lowercase, and an entry only matches as a whole string, never as a
substring): whenever some country's lowercased capital entries contain the
query the lookup succeeds with the first such country, and any successful
result is that first match; when no lowercased entry equals the query it
fails with the NotFound message; countries with empty capital lists are
never matched. -/
theorem C6_findByCapital_amended (list : List Country) (q : String)
    (hcap : ∀ c ∈ list, c.capital ≠ none) :
    (∀ c, findByCapital list q = Except.ok c →
      ∃ pre post caps, list = pre ++ c :: post
        ∧ c.capital = some caps
        ∧ (caps.map strToLower).contains q = true
        ∧ ∀ d ∈ pre, ∃ caps2, d.capital = some caps2
            ∧ (caps2.map strToLower).contains q = false)
    ∧ ((∃ c ∈ list, ∃ caps, c.capital = some caps
          ∧ (caps.map strToLower).contains q = true) →
        ∃ c2 pre post caps2, findByCapital list q = Except.ok c2
          ∧ list = pre ++ c2 :: post
          ∧ c2.capital = some caps2
          ∧ (caps2.map strToLower).contains q = true
          ∧ ∀ d ∈ pre, ∃ caps3, d.capital = some caps3
              ∧ (caps3.map strToLower).contains q = false)
    ∧ ((∀ c ∈ list, ∀ caps, c.capital = some caps →
          (caps.map strToLower).contains q = false) →
        findByCapital list q
          = Except.error ("Could not find the country of capital: " ++ q)) := by
  refine ⟨?_, ?_, ?_⟩
  · intro c h
    cases hscan : findCapScan list q with
    | error e => simp [findByCapital, hscan] at h
    | ok o =>
      cases o with
      | none => simp [findByCapital, hscan] at h
      | some c2 =>
        simp only [findByCapital, hscan] at h
        obtain rfl : c2 = c := by simpa using h
        exact findCapScan_ok_some q list _ hscan
  · rintro ⟨c0, hc0, caps0, hcaps0, hin0⟩
    obtain ⟨c2, hscan⟩ := findCapScan_finds q list hcap ⟨c0, hc0, caps0, hcaps0, hin0⟩
    obtain ⟨pre, post, caps2, hdec, hcsome, hcontains, hpre⟩ :=
      findCapScan_ok_some q list c2 hscan
    exact ⟨c2, pre, post, caps2, by simp only [findByCapital, hscan], hdec,
      hcsome, hcontains, hpre⟩
  · intro hno
    simp only [findByCapital, findCapScan_none q list hcap hno]

/-- C6 amended witness: the lowercase query "paris" against [Spain, France]
succeeds, returning France (capital "Paris") as the first match, with Spain
in the non-matching front segment. -/
theorem C6_findByCapital_amended_witness :
    ∃ c2 pre post caps2,
      findByCapital [spainC, franceC] "paris" = Except.ok c2
      ∧ [spainC, franceC] = pre ++ c2 :: post
      ∧ c2.capital = some caps2
      ∧ (caps2.map strToLower).contains "paris" = true
      ∧ ∀ d ∈ pre, ∃ caps3, d.capital = some caps3
          ∧ (caps3.map strToLower).contains "paris" = false :=
  (C6_findByCapital_amended [spainC, franceC] "paris" (by decide)).2.1
    ⟨franceC, by decide, ["Paris"], rfl, by decide⟩

/-! ## C7 -/

/-- C7: `print` projects a country into the display record totally (the
function is defined for every record, so no exception is possible), and
every optional field — coordinates, capital, population, region, subregion,
capital coordinates, timezones, top-level domains, and the flag — renders as
the explicit "N/A" / "Not Available" marker when the underlying data is
absent. -/
theorem C7_print_optional_fields (c : Country) (flags : List FlagAscii) :
    (c.latlng = none → (print c flags).latlng = "N/A")
    ∧ (c.capital = none → (print c flags).capital = "N/A")
    ∧ (c.capital = some [] → (print c flags).capital = "N/A")
    ∧ (c.population = none → (print c flags).population = "N/A")
    ∧ (c.region = none → (print c flags).region = "N/A")
    ∧ (c.subregion = none → (print c flags).subregion = "N/A")
    ∧ (c.capitalInfo = none → (print c flags).capitalLatLng = "N/A")
    ∧ (∀ ci, c.capitalInfo = some ci → ci.latlng = none →
        (print c flags).capitalLatLng = "N/A")
    ∧ (c.timezones = none → (print c flags).timezones = "N/A")
    ∧ (c.tld = none → (print c flags).tld = "N/A")
    ∧ ((∀ f ∈ flags, f.countryName ≠ c.name.common) →
        (print c flags).flag = "Flag: " ++ "Not Available") := by
  refine ⟨?_, ?_, ?_, ?_, ?_, ?_, ?_, ?_, ?_, ?_, ?_⟩
  · intro h; simp [print, h]
  · intro h; simp [print, h]
  · intro h; simp [print, h]
  · intro h; simp [print, h]
  · intro h; simp [print, h]
  · intro h; simp [print, h]
  · intro h; simp [print, h]
  · intro ci hci h; simp [print, hci, h]
  · intro h; simp [print, h]
  · intro h; simp [print, h]
  · intro h
    have hfind : flags.find? (fun i => i.countryName == c.name.common) = none :=
      List.find?_eq_none.mpr (fun f hf => by simpa using h f hf)
    simp [print, hfind]

/-- C7 witness: a record with every optional field absent and no flag-art
entry renders "N/A" (or "Not Available") everywhere. -/
theorem C7_print_optional_fields_witness :
    (print baseCountry []).latlng = "N/A"
    ∧ (print baseCountry []).capital = "N/A"
    ∧ (print baseCountry []).population = "N/A"
    ∧ (print baseCountry []).region = "N/A"
    ∧ (print baseCountry []).subregion = "N/A"
    ∧ (print baseCountry []).capitalLatLng = "N/A"
    ∧ (print baseCountry []).timezones = "N/A"
    ∧ (print baseCountry []).tld = "N/A"
    ∧ (print baseCountry []).flag = "Flag: " ++ "Not Available" :=
  ⟨(C7_print_optional_fields baseCountry []).1 rfl,
   (C7_print_optional_fields baseCountry []).2.1 rfl,
   (C7_print_optional_fields baseCountry []).2.2.2.1 rfl,
   (C7_print_optional_fields baseCountry []).2.2.2.2.1 rfl,
   (C7_print_optional_fields baseCountry []).2.2.2.2.2.1 rfl,
   (C7_print_optional_fields baseCountry []).2.2.2.2.2.2.1 rfl,
   (C7_print_optional_fields baseCountry []).2.2.2.2.2.2.2.2.1 rfl,
   (C7_print_optional_fields baseCountry []).2.2.2.2.2.2.2.2.2.1 rfl,
   (C7_print_optional_fields baseCountry []).2.2.2.2.2.2.2.2.2.2 (by decide)⟩

/-! ## C8 -/

/-- C8 counterexample: on an empty name index, `random` evaluates
`names[Math.floor(q * 0)]`, i.e. `names[0]` on the empty array, which is
`undefined`: the call returns normally with no value — there is no
`EmptyDataset` failure anywhere in its behaviour (the result type is an
`Option` with no error channel at all). -/
theorem C8_random_cex : random [] 1 2 = none := rfl

/-- C8 amended: for a uniform draw `num/den ∈ [0,1)`, `random` on a
non-empty index returns `some` of the name at position
`⌊(num/den) · n⌋ = num·n/den`; the selected position `i` is characterised by
`i·den ≤ num·n < (i+1)·den`, i.e. the draw intervals for the positions
partition `[0,1)` into `n` pieces of equal width `1/n` (uniform selection).
On an empty index it returns `none` (JavaScript `undefined`) rather than
failing with `EmptyDataset`. -/
theorem C8_random_amended (names : List String) (num den : Nat)
    (hden : 0 < den) (hlt : num < den) :
    (names = [] → random names num den = none)
    ∧ (names ≠ [] → ∃ i, ∃ hi : i < names.length,
        random names num den = some (names.get ⟨i, hi⟩)
        ∧ i * den ≤ num * names.length
        ∧ num * names.length < (i + 1) * den) := by
  constructor
  · rintro rfl
    rfl
  · intro hne
    have hn : 0 < names.length := List.length_pos.mpr hne
    have hi : num * names.length / den < names.length := by
      rw [Nat.div_lt_iff_lt_mul hden]
      calc num * names.length < den * names.length :=
            Nat.mul_lt_mul_of_pos_right hlt hn
        _ = names.length * den := Nat.mul_comm _ _
    refine ⟨num * names.length / den, hi, ?_, ?_, ?_⟩
    · simp only [random]
      exact List.get?_eq_get hi
    · exact Nat.div_mul_le_self _ _
    · have hmod := Nat.div_add_mod (num * names.length) den
      have hmlt := Nat.mod_lt (num * names.length) hden
      calc num * names.length
          = den * (num * names.length / den) + num * names.length % den := hmod.symm
        _ < den * (num * names.length / den) + den := Nat.add_lt_add_left hmlt _
        _ = (num * names.length / den + 1) * den := by ring

/-- C8 amended witness: draw 3/4 over a two-name index selects index 1. -/
theorem C8_random_amended_witness :
    ∃ i, ∃ hi : i < (["France", "Spain"] : List String).length,
      random ["France", "Spain"] 3 4
        = some ((["France", "Spain"] : List String).get ⟨i, hi⟩)
      ∧ i * 4 ≤ 3 * (["France", "Spain"] : List String).length
      ∧ 3 * (["France", "Spain"] : List String).length < (i + 1) * 4 :=
  (C8_random_amended ["France", "Spain"] 3 4 (by decide) (by decide)).2 (by decide)

/-! ## C9 -/

/-- C9: one step of the flag-art generation loop.  A present non-falsy `png`
URL is preferred; when `png` is absent or empty the loop falls back to a
present non-falsy `svg` URL; when neither is available the country is
skipped silently — the loop continues over the rest with no error, so the
generation is total over countries lacking flag data.  (The non-"N/A"
hypotheses exclude a URL colliding with the code's literal `"N/A"`
sentinel.) -/
theorem C9_flag_art_fallback (c : Country) (rest : List Country)
    (render : String → List String) :
    (∀ p, c.flags.bind CountryFlags.png = some p → p ≠ "" → p ≠ "N/A" →
      generateFlagImgs (c :: rest) render
        = (⟨c.name.common, render p⟩ :: (generateFlagImgs rest render).1,
           Event.render p :: (generateFlagImgs rest render).2))
    ∧ (∀ s, (c.flags.bind CountryFlags.png = none
          ∨ c.flags.bind CountryFlags.png = some "") →
        c.flags.bind CountryFlags.svg = some s → s ≠ "" → s ≠ "N/A" →
        generateFlagImgs (c :: rest) render
          = (⟨c.name.common, render s⟩ :: (generateFlagImgs rest render).1,
             Event.render s :: (generateFlagImgs rest render).2))
    ∧ ((c.flags.bind CountryFlags.png = none
          ∨ c.flags.bind CountryFlags.png = some "") →
        (c.flags.bind CountryFlags.svg = none
          ∨ c.flags.bind CountryFlags.svg = some "") →
        generateFlagImgs (c :: rest) render = generateFlagImgs rest render) := by
  refine ⟨?_, ?_, ?_⟩
  · intro p hp hne hna
    simp [generateFlagImgs, jsOrStr, hp, hne, hna]
  · intro s hpng hs hne hna
    rcases hpng with hpng | hpng <;>
      simp [generateFlagImgs, jsOrStr, hpng, hs, hne, hna]
  · intro hpng hsvg
    rcases hpng with hpng | hpng <;> rcases hsvg with hsvg | hsvg <;>
      simp [generateFlagImgs, jsOrStr, hpng, hsvg]

/-- Demo record with both flag URLs present. -/
def flagC : Country :=
  { baseCountry with name := ⟨"Flagland"⟩, flags := some ⟨some "u.png", some "u.svg"⟩ }

/-- Demo renderer standing in for the image converter. -/
def demoRender : String → List String := fun _ => ["x"]

/-- C9 witness: a country with a png URL renders it (preferring png). -/
theorem C9_flag_art_fallback_witness :
    generateFlagImgs [flagC] demoRender
      = (⟨flagC.name.common, demoRender "u.png"⟩ :: (generateFlagImgs [] demoRender).1,
         Event.render "u.png" :: (generateFlagImgs [] demoRender).2) :=
  (C9_flag_art_fallback flagC [] demoRender).1 "u.png" rfl (by decide) (by decide)

/-! ## C10 -/

/-- Demo record named "a". -/
def aC : Country := { baseCountry with name := ⟨"a"⟩ }

/-- C10 counterexample: `baseCountry` has the empty common name, so the
exact pass of `find` with the empty query matches it before the fuzzy pass
can return the first country: on `[aC, baseCountry]` the claim says the
first country `aC` is returned, but the code returns `baseCountry`. -/
theorem C10_find_empty_cex :
    find [aC, baseCountry] "" = Except.ok baseCountry
    ∧ ([aC, baseCountry] : List Country).head? = some aC
    ∧ baseCountry ≠ aC :=
  ⟨rfl, rfl, by decide⟩

/-- The empty character list occurs in every list. -/
theorem charsContain_nil (l : List Char) : charsContain [] l = true := by
  cases l with
  | nil => rfl
  | cons a rest => rfl

/-- C10 amended: on a non-empty dataset in which no country's lowercased
common name is empty, `find` with the empty query succeeds with the first
country in dataset order (the exact pass cannot match and the empty string
is a substring of every name); a country whose common name is itself empty
would instead be returned by the exact pass.  On the empty dataset `find`
fails with the NotFound message. -/
theorem C10_find_empty_amended (list : List Country)
    (h : ∀ c ∈ list, strToLower c.name.common ≠ "") :
    (∀ c rest2, list = c :: rest2 → find list "" = Except.ok c)
    ∧ (list = [] →
        find list "" = Except.error ("Cannot find country named " ++ strToLower "")) := by
  constructor
  · rintro c rest2 rfl
    have hnone : (c :: rest2).find?
        (fun d => strToLower d.name.common == strToLower "") = none := by
      apply List.find?_eq_none.mpr
      intro x hx
      simpa using h x hx
    have hfz : strContains (strToLower c.name.common) (strToLower "") = true :=
      charsContain_nil _
    have hcons : List.find?
        (fun d => strContains (strToLower d.name.common) (strToLower ""))
        (c :: rest2) = some c :=
      List.find?_cons_of_pos rest2 hfz
    unfold find
    rw [hnone, hcons]
  · rintro rfl
    rfl

/-- C10 amended witness: the empty query over the one-element dataset [aC]
returns aC. -/
theorem C10_find_empty_amended_witness : find [aC] "" = Except.ok aC :=
  (C10_find_empty_amended [aC] (by decide)).1 aC [] rfl
